import Mathlib

/-!
Verification development for the MealMind backend (Rust).

This file gives a shallow embedding of the authentication subsystem
(`src/auth/services.rs`, `src/auth/extractors.rs`, `src/auth/handlers.rs`,
`src/auth/password.rs`) and of the meal-creation workflow
(`src/meals/services.rs`, `src/images/services.rs`, `src/meals/repo.rs`),
together with theorems settling the specification claims about them.

General modelling conventions:
- `Uuid` values are modelled as `Nat`; fresh identifier generation and
  wall-clock time are supplied explicitly (as parameters or via an
  environment record), since the Rust code obtains them from effects.
- Fallible Rust functions returning `anyhow::Result` are modelled with
  `Except String`.
- The database is a record of row lists plus a logical clock used to
  assign `created_at` timestamps in insertion order (reflecting the
  sequential `INSERT`s of the source, whose display ordering relies on
  ascending `created_at`).
- Failures of external collaborators (Postgres, S3) are injected via a
  failure-oracle record `Env`, one flag per effectful call site.
-/

deriving instance DecidableEq for Except

namespace MealMind

/-! ### JWT token service (`src/auth/dto.rs`, `src/auth/services.rs`)

The compact JWS string produced by the `jsonwebtoken` crate is modelled by
a `Token` record carrying the header algorithm, the claims, and the HMAC
signature. The signature is modelled by the secret that produced it: the
verifier's recomputation succeeds exactly when the two secrets agree. -/

/-- Token type used to distinguish Access and Refresh JWTs
(`src/auth/claims.rs`, `src/auth/dto.rs`). -/
inductive TokenKind where
  | Access
  | Refresh
deriving DecidableEq

/-- JWT payload used for authentication (`Claims` in `src/auth/dto.rs`). -/
structure Claims where
  sub : Nat
  exp : Nat
  iat : Nat
  iss : String
  aud : String
  kind : TokenKind
deriving DecidableEq

/-- JWT signing and verification configuration (`JwtKeys` in
`src/auth/dto.rs`); `encoding` and `decoding` are both derived from
`secret`, so the model keeps the secret itself. TTLs are in seconds. -/
structure JwtKeys where
  secret : String
  issuer : String
  audience : String
  access_ttl : Nat
  refresh_ttl : Nat
deriving DecidableEq

/-- Header algorithm of a compact JWT. -/
inductive JwtAlg where
  | HS256
  | otherAlg
deriving DecidableEq

/-- A decoded compact JWT: header algorithm, claims, and the secret with
which its HMAC signature was produced. -/
structure Token where
  alg : JwtAlg
  claims : Claims
  sig : String
deriving DecidableEq

/-- TTL selection by token kind, as in `sign_with_kind`
(`src/auth/services.rs:73`). -/
def ttlFor (keys : JwtKeys) (kind : TokenKind) : Nat :=
  match kind with
  | TokenKind.Access => keys.access_ttl
  | TokenKind.Refresh => keys.refresh_ttl

/-- `JwtKeys::sign_with_kind` (`src/auth/services.rs:70-93`): builds claims
with `iat = now`, `exp = now + ttl`, issuer/audience from configuration,
and signs with HS256 under the configured secret. -/
def sign_with_kind (keys : JwtKeys) (now : Nat) (user_id : Nat) (kind : TokenKind) : Token :=
  { alg := JwtAlg.HS256
    claims :=
      { sub := user_id
        iat := now
        exp := now + ttlFor keys kind
        iss := keys.issuer
        aud := keys.audience
        kind := kind }
    sig := keys.secret }

/-- `JwtKeys::sign_access` (`src/auth/services.rs:95-97`). -/
def sign_access (keys : JwtKeys) (now : Nat) (user_id : Nat) : Token :=
  sign_with_kind keys now user_id TokenKind.Access

/-- `JwtKeys::sign_refresh` (`src/auth/services.rs:99-101`). -/
def sign_refresh (keys : JwtKeys) (now : Nat) (user_id : Nat) : Token :=
  sign_with_kind keys now user_id TokenKind.Refresh

/-- `JwtKeys::verify` (`src/auth/services.rs:103-120`): checks the HS256
signature, expiry with a 60-second leeway (`validation.leeway = 60`), and
the issuer/audience — the latter two only when the configured string is
non-empty, mirroring the conditional `set_issuer`/`set_audience` calls. -/
def verify (keys : JwtKeys) (now : Nat) (tok : Token) : Except String Claims :=
  if tok.alg ≠ JwtAlg.HS256 then Except.error "InvalidAlgorithm"
  else if tok.sig ≠ keys.secret then Except.error "InvalidSignature"
  else if tok.claims.exp + 60 < now then Except.error "ExpiredSignature"
  else if keys.issuer ≠ "" ∧ tok.claims.iss ≠ keys.issuer then Except.error "InvalidIssuer"
  else if keys.audience ≠ "" ∧ tok.claims.aud ≠ keys.audience then Except.error "InvalidAudience"
  else Except.ok tok.claims

/-- `JwtKeys::verify_refresh` (`src/auth/services.rs:122-129`): `verify`,
then reject any token whose kind is not `Refresh`. -/
def verify_refresh (keys : JwtKeys) (now : Nat) (tok : Token) : Except String Claims :=
  match verify keys now tok with
  | Except.error e => Except.error e
  | Except.ok claims =>
      if claims.kind ≠ TokenKind.Refresh then Except.error "not a refresh token"
      else Except.ok claims

/-! ### Password hashing (`src/auth/password.rs`)

The PHC-encoded Argon2 hash string is modelled by its parsed form: the
algorithm identifier, the cost parameters, the salt, and the digest. The
Argon2 compression function itself is external library code, so it enters
the model as an explicit function parameter `argon2`; every theorem below
holds for an arbitrary such function. -/

/-- Argon2 cost parameters stored inside the encoded hash. -/
structure Argon2Params where
  m_cost : Nat
  t_cost : Nat
  p_cost : Nat
deriving DecidableEq

/-- Parameters of `Argon2::default()` (argon2id v19 defaults). -/
def argon2DefaultParams : Argon2Params :=
  { m_cost := 19456, t_cost := 2, p_cost := 1 }

/-- Parsed form of the PHC-encoded password hash string. -/
structure PasswordHashEnc where
  alg_id : String
  params : Argon2Params
  salt : List Nat
  digest : List Nat
deriving DecidableEq

/-- `hash_password` (`src/auth/password.rs:8-19`): generate a fresh random
salt (passed explicitly here), run Argon2 with default parameters, and
encode algorithm id, parameters, salt and digest into the stored hash. -/
def hash_password (argon2 : Argon2Params → List Nat → String → List Nat)
    (salt : List Nat) (plain : String) : PasswordHashEnc :=
  { alg_id := "argon2id"
    params := argon2DefaultParams
    salt := salt
    digest := argon2 argon2DefaultParams salt plain }

/-- `verify_password` (`src/auth/password.rs:21-29`): parse the stored
hash (the parsed form is the input here; an unrecognised algorithm id
stands for the malformed-hash parse failure), recompute the digest of
`plain` with the stored parameters and salt, and compare. -/
def verify_password (argon2 : Argon2Params → List Nat → String → List Nat)
    (plain : String) (stored : PasswordHashEnc) : Except String Bool :=
  if stored.alg_id ≠ "argon2id" then Except.error "invalid hash"
  else Except.ok (decide (argon2 stored.params stored.salt plain = stored.digest))

/-! ### Authentication guard (`src/auth/extractors.rs:21-62`)

`AuthUser::from_request_parts` reads the `Authorization` header, trims it,
strips the `"Bearer "` or `"bearer "` scheme, verifies the token and
requires kind `Access`. Header values are modelled as `List Char`; the
compact-JWT parsing done inside `jsonwebtoken::decode` is a parameter
`decodeTok`. -/

/-- Rust `str::trim`: drop whitespace from both ends. -/
def rustTrim (cs : List Char) : List Char :=
  ((cs.dropWhile Char.isWhitespace).reverse.dropWhile Char.isWhitespace).reverse

/-- Rust `str::strip_prefix` on character lists. -/
def stripPrefixOf (p s : List Char) : Option (List Char) :=
  if p.isPrefixOf s then some (s.drop p.length) else none

/-- Rust `Option::or_else` specialized to the scheme-stripping step. -/
def orElseOpt (a b : Option (List Char)) : Option (List Char) :=
  match a with
  | some x => some x
  | none => b

/-- Continuation of the guard once a token has been extracted from the
header (`src/auth/extractors.rs:42-60`): decode and verify it, reject a
non-access kind, and otherwise yield the subject. -/
def handle_bearer_token (decodeTok : List Char → Option Token) (keys : JwtKeys) (now : Nat)
    (tokenCs : List Char) : Except (Nat × String) Nat :=
  match decodeTok tokenCs with
  | none => Except.error (401, "invalid or expired token")
  | some tok =>
      match verify keys now tok with
      | Except.error _ => Except.error (401, "invalid or expired token")
      | Except.ok claims =>
          if claims.kind ≠ TokenKind.Access then Except.error (401, "access token required")
          else Except.ok claims.sub

/-- `AuthUser::from_request_parts` (`src/auth/extractors.rs:21-62`): the
header is absent (`none`) or its string value; the guard trims it, strips
exactly the prefixes `"Bearer "` and `"bearer "` (in that order), and
hands the remainder to verification. -/
def from_request_parts (decodeTok : List Char → Option Token) (keys : JwtKeys) (now : Nat)
    (header : Option (List Char)) : Except (Nat × String) Nat :=
  match header with
  | none => Except.error (401, "missing Authorization header")
  | some h =>
      let trimmed := rustTrim h
      match orElseOpt (stripPrefixOf ("Bearer ".data) trimmed)
          (stripPrefixOf ("bearer ".data) trimmed) with
      | none => Except.error (401, "invalid auth scheme")
      | some tokenCs => handle_bearer_token decodeTok keys now tokenCs

/-! ### Registration handler (`src/auth/handlers.rs:29-98`)

The database collaborator (`User::find_by_email`, `User::create` in
`src/auth/repo.rs`) is modelled by an oracle record. `User::create`
returns `anyhow::Result<User>`; its error carries a message, and the
model additionally tags whether the underlying failure was a uniqueness
violation — a tag the handler never inspects, exactly as the `anyhow`
erasure in the source. -/

/-- A user row (`User` in `src/auth/repo.rs`). -/
structure UserRec where
  id : Nat
  email : String
  password_hash : String
deriving DecidableEq

/-- A database error as surfaced to the register handler: its display
text plus the (erased) fact of being a unique-constraint violation. -/
structure DbErr where
  unique_violation : Bool
  msg : String
deriving DecidableEq

/-- Outcome of `User::find_by_email`: `Ok(Some(_))`, `Ok(None)`, or
`Err(_)`. -/
inductive FindResult where
  | foundUser : UserRec → FindResult
  | noUser : FindResult
  | findError : DbErr → FindResult
deriving DecidableEq

/-- Database collaborator for the register handler. -/
structure RegOracle where
  find_by_email : String → FindResult
  create : String → String → Except DbErr UserRec

/-- `RegisterRequest` (`src/auth/dto.rs`). -/
structure RegisterRequest where
  email : String
  password : String
deriving DecidableEq

/-- `PublicUser` (`src/auth/dto.rs`). -/
structure PublicUser where
  id : Nat
  email : String
deriving DecidableEq

/-- `AuthResponse` (`src/auth/dto.rs`), with tokens in decoded form. -/
structure AuthResponse where
  access_token : Token
  refresh_token : Token
  user : PublicUser
deriving DecidableEq

/-- Character class `[^@\s]` of the email regex: not `'@'` and not
whitespace. -/
def emailChar (c : Char) : Bool :=
  decide (c ≠ '@') && !c.isWhitespace

/-- Whether the domain part can be split as `[^@\s]+ "." [^@\s]+`: some
`'.'` occurs with at least one character before it and one after it. -/
def domainHasDot (domain : List Char) : Bool :=
  (List.range domain.length).any fun i =>
    decide (domain.getD i '@' = '.') && decide (1 ≤ i) && decide (i + 1 < domain.length)

/-- `is_valid_email` (`src/auth/services.rs:22-27`), the semantics of the
anchored regex `[^@\s]+ "@" [^@\s]+ "." [^@\s]+`: split the string at its
first `'@'`; the part before must be non-empty without whitespace, the
part after must be non-empty, free of `'@'` and whitespace, and contain
an inner dot. -/
def is_valid_email_chars (cs : List Char) : Bool :=
  let localPart := cs.takeWhile fun c => decide (c ≠ '@')
  let rest := cs.dropWhile fun c => decide (c ≠ '@')
  match rest with
  | [] => false
  | _ :: domain =>
      decide (localPart ≠ []) && localPart.all (fun c => !c.isWhitespace) &&
        domain.all emailChar && domainHasDot domain

/-- `is_valid_email` on strings. -/
def is_valid_email (s : String) : Bool :=
  is_valid_email_chars s.data

/-- The email normalization of the handlers
(`payload.email.trim().to_lowercase()`,
`src/auth/handlers.rs:33`): trim surrounding whitespace, lowercase every
character. -/
def normalizeEmail (s : String) : String :=
  String.mk ((rustTrim s.data).map Char.toLower)

/-- The `register` handler (`src/auth/handlers.rs:29-98`): normalize the
email, validate it and the password length, pre-check for an existing
user (only `Ok(Some(_))` yields the 409; `Ok(None)` and `Err(_)` both
fall through, as the `if let Ok(Some(_))` does), hash the password,
insert the user — mapping any insert error `e` to
`(500, e.to_string())` — and sign an access/refresh token pair. -/
def register (oracle : RegOracle) (hashFn : String → String) (keys : JwtKeys) (now : Nat)
    (payload : RegisterRequest) : Except (Nat × String) AuthResponse :=
  let email := normalizeEmail payload.email
  if !is_valid_email email then Except.error (400, "Invalid email")
  else if payload.password.length < 8 then Except.error (400, "Password too short")
  else
    match oracle.find_by_email email with
    | FindResult.foundUser _ => Except.error (409, "Email already registered")
    | _ =>
        match oracle.create email (hashFn payload.password) with
        | Except.error e => Except.error (500, e.msg)
        | Except.ok user =>
            Except.ok
              { access_token := sign_access keys now user.id
                refresh_token := sign_refresh keys now user.id
                user := { id := user.id, email := user.email } }

/-! ### 500-error helper (`src/meals/handlers.rs:189-191`) -/

/-- An internal (downstream) error as seen by a handler; `msg` is what its
`Display`/`to_string` produces. -/
structure InternalErr where
  msg : String
deriving DecidableEq

/-- Rust `e.to_string()` for an internal error. -/
def errText (e : InternalErr) : String := e.msg

/-- `internal` (`src/meals/handlers.rs:189-191`):
`(StatusCode::INTERNAL_SERVER_ERROR, e.to_string())`. -/
def internal (e : InternalErr) : Nat × String :=
  (500, errText e)

/-! ### Meal creation workflow (`src/meals/services.rs`,
`src/images/services.rs`)

`create_meal_with_images` commits the meal row in a first transaction,
then uploads every image to object storage, then inserts all photo rows
inside a second transaction (`upload_and_link_images`). The photo-row
insert itself (`images::repo::insert_photo_tx`, called at
`src/images/services.rs:39`) is not present under `src/`, so its row
shape is modelled from the spec. -/

/-- A meal row (`meals` table; `src/meals/repo.rs:64-82` inserts
`user_id` and lets `title`/`notes` default to NULL). -/
structure MealRow where
  id : Nat
  user_id : Option Nat
  title : Option String
  notes : Option String
  created_at : Nat
deriving DecidableEq

/-- A photo row (`photos` table). -/
structure PhotoRow where
  id : Nat
  user_id : Nat
  meal_id : Option Nat
  s3_key : String
  status : String
  created_at : Nat
deriving DecidableEq

/-- The relational store: meal rows, photo rows, and a logical clock used
to assign `created_at` in insertion order. -/
structure DB where
  meals : List MealRow
  photos : List PhotoRow
  clock : Nat
deriving DecidableEq

/-- An object stored in the S3/MinIO bucket by `put_object`. -/
structure StoredObj where
  key : String
  body : List Nat
  content_type : String
deriving DecidableEq

/-- Effect environment for one workflow run: the generated meal id, the
generated photo id for each upload index, and one failure flag per
effectful call site (meal `INSERT`, meal-tx `COMMIT`, each `put_object`,
and the photo transaction as a whole — an `INSERT` failure and a `COMMIT`
failure are indistinguishable in their effect on the store, since either
way the transaction leaves no rows). -/
structure Env where
  mealId : Nat
  photoId : Nat → Nat
  mealInsertFails : Bool
  mealCommitFails : Bool
  uploadFails : Nat → Bool
  photoTxFails : Bool

/-- `CreatedMealRequest` (`src/meals/dto.rs`): raw image bytes plus
optional MIME types. -/
structure CreatedMealRequest where
  images : List (List Nat)
  content_types : List String
deriving DecidableEq

/-- `CreatedMealResponse` (`src/meals/dto.rs`): meal id, its creation
timestamp, and the photo ids. -/
structure CreatedMealResponse where
  id : Nat
  created_at : Nat
  images : List Nat
deriving DecidableEq

/-- Result of a workflow run: final database, final object storage, and
the returned value or error. -/
structure WfResult (α : Type) where
  db : DB
  storage : List StoredObj
  out : Except String α

/-- The pairing loop of `normalize_images` (`src/meals/services.rs:15-25`):
index `i` pairs each buffer with `content_types[i]`, defaulting to
`"image/jpeg"`. -/
def normalizePairs (cts : List String) : Nat → List (List Nat) → List (List Nat × String)
  | _, [] => []
  | i, buf :: rest => (buf, cts.getD i "image/jpeg") :: normalizePairs cts (i + 1) rest

/-- `normalize_images` (`src/meals/services.rs:12-27`): reject an empty
image list, else pair bytes with MIME types. -/
def normalize_images (req : CreatedMealRequest) : Except String (List (List Nat × String)) :=
  if req.images.isEmpty then Except.error "no images provided"
  else Except.ok (normalizePairs req.content_types 0 req.images)

/-- `ext_from_mime` (`src/images/services.rs:58-66`). -/
def ext_from_mime (ct : String) : Option String :=
  if ct = "image/jpeg" ∨ ct = "image/jpg" then some "jpg"
  else if ct = "image/png" then some "png"
  else if ct = "image/webp" then some "webp"
  else if ct = "image/heic" then some "heic"
  else none

/-- Storage key derivation (`src/images/services.rs:29`):
`meals/{user_id}/{meal_id}-{photo_id}.{ext}`. -/
def mkObjectKey (user_id meal_id photo_id : Nat) (ext : String) : String :=
  "meals/" ++ Nat.repr user_id ++ "/" ++ Nat.repr meal_id ++ "-" ++
    Nat.repr photo_id ++ "." ++ ext

/-- The object stored for the image at index `k` of an upload batch: its
photo id comes from the generator, its extension from the MIME type
(`unwrap_or("bin")`), its key from `mkObjectKey`. -/
def uploadedObj (env : Env) (user_id meal_id k : Nat) (body : List Nat) (ct : String) :
    StoredObj :=
  { key := mkObjectKey user_id meal_id (env.photoId k) ((ext_from_mime ct).getD "bin")
    body := body
    content_type := ct }

/-- The upload loop of `upload_and_link_images`
(`src/images/services.rs:25-35`): for the image at index `k`, generate a
photo id, derive the key, `put_object` it (failure aborts the loop,
keeping the objects already uploaded), and collect `(photo id, key)`. -/
def runUploads (env : Env) (user_id meal_id : Nat) :
    Nat → List StoredObj → List (List Nat × String) →
      List StoredObj × Except String (List (Nat × String))
  | _, storage, [] => (storage, Except.ok [])
  | k, storage, (body, ct) :: rest =>
      let obj := uploadedObj env user_id meal_id k body ct
      if env.uploadFails k then (storage, Except.error ("put_object " ++ obj.key))
      else
        match runUploads env user_id meal_id (k + 1) (storage ++ [obj]) rest with
        | (st, Except.ok objs) => (st, Except.ok ((env.photoId k, obj.key) :: objs))
        | (st, Except.error e) => (st, Except.error e)

/-- Modelled from the spec: the photo rows written by the transaction of
`upload_and_link_images` (`src/images/services.rs:37-41`). The called
`images::repo::insert_photo_tx` is absent from `src/`; per the spec it
inserts "one photo row per successfully uploaded object, each referencing
the meal id and storage key with status 'uploaded'". Rows take successive
`created_at` timestamps starting at `clk`, reflecting sequential
insertion. -/
def photoRowsOf (user_id meal_id : Nat) : Nat → List (Nat × String) → List PhotoRow
  | _, [] => []
  | clk, (pid, key) :: rest =>
      { id := pid, user_id := user_id, meal_id := some meal_id, s3_key := key,
        status := "uploaded", created_at := clk } :: photoRowsOf user_id meal_id (clk + 1) rest

/-- `upload_and_link_images` (`src/images/services.rs:13-44`): reject an
empty list; upload every image (a failed upload aborts before the
database transaction begins); then open one transaction, insert all photo
rows, and commit — if the transaction fails, no photo row is written; on
success return the photo ids in submission order. -/
def upload_and_link_images (env : Env) (db : DB) (storage : List StoredObj)
    (user_id meal_id : Nat) (images : List (List Nat × String)) : WfResult (List Nat) :=
  if images.isEmpty then { db := db, storage := storage, out := Except.error "no images provided" }
  else
    match runUploads env user_id meal_id 0 storage images with
    | (st, Except.error e) => { db := db, storage := st, out := Except.error e }
    | (st, Except.ok objs) =>
        if env.photoTxFails then { db := db, storage := st, out := Except.error "commit tx" }
        else
          { db := { meals := db.meals
                    photos := db.photos ++ photoRowsOf user_id meal_id db.clock objs
                    clock := db.clock + objs.length }
            storage := st
            out := Except.ok (objs.map Prod.fst) }

/-- The meal row inserted by `create_meal_tx` (`src/meals/repo.rs:64-82`):
`INSERT INTO meals (user_id) VALUES ($1)`, `title`/`notes` defaulting to
NULL. -/
def mealRowOf (meal_id user_id clk : Nat) : MealRow :=
  { id := meal_id, user_id := some user_id, title := none, notes := none, created_at := clk }

/-- The store after the first transaction of `create_meal_with_images`
committed the meal row. -/
def mealDb1 (env : Env) (db : DB) (user_id : Nat) : DB :=
  { meals := db.meals ++ [mealRowOf env.mealId user_id db.clock]
    photos := db.photos
    clock := db.clock + 1 }

/-- `create_meal_with_images` (`src/meals/services.rs:32-59`): normalize
the request; open a transaction, insert the meal row and commit it
(step 1); then upload the images and link the photo rows in a second
transaction via `upload_and_link_images` (step 2). The `begin`/`INSERT`/
`commit` failure flags of `Env` each abort with the store unchanged. -/
def create_meal_with_images (env : Env) (db : DB) (storage : List StoredObj)
    (user_id : Nat) (req : CreatedMealRequest) : WfResult CreatedMealResponse :=
  match normalize_images req with
  | Except.error e => { db := db, storage := storage, out := Except.error e }
  | Except.ok normalized =>
      if env.mealInsertFails then { db := db, storage := storage, out := Except.error "insert meal" }
      else if env.mealCommitFails then
        { db := db, storage := storage, out := Except.error "commit meal" }
      else
        let meal_id := env.mealId
        let created_at := db.clock
        let r := upload_and_link_images env (mealDb1 env db user_id) storage user_id
          meal_id normalized
        match r.out with
        | Except.error e => { db := r.db, storage := r.storage, out := Except.error e }
        | Except.ok ids =>
            { db := r.db, storage := r.storage
              out := Except.ok { id := meal_id, created_at := created_at, images := ids } }

/-- Comparison used for the `ORDER BY created_at ASC` read-back. -/
def photoLe (a b : PhotoRow) : Bool :=
  decide (a.created_at ≤ b.created_at)

/-- `list_photo_ids_by_meal` (`src/photos/repo.rs:38-56`): select
`(id, s3_key)` of the photos of a meal, ordered by ascending
`created_at`. -/
def list_photo_ids_by_meal (db : DB) (meal_id : Nat) : List (Nat × String) :=
  ((db.photos.filter fun p => decide (p.meal_id = some meal_id)).mergeSort photoLe).map
    fun p => (p.id, p.s3_key)

/-! ### Meal repository (`src/meals/repo.rs`) -/

/-- The ownership filter of `get_meal_details` and `update_meal_full`
(`src/meals/repo.rs:95,182`): `user_id = $caller OR user_id IS NULL`. -/
def mealAccessible (user_id : Nat) (m : MealRow) : Bool :=
  decide (m.user_id = some user_id ∨ m.user_id = none)

/-- The row filter `id = $meal AND (user_id = $caller OR user_id IS NULL)`
shared by `get_meal_details` and `update_meal_full`. -/
def mealWhere (user_id meal_id : Nat) (m : MealRow) : Bool :=
  decide (m.id = meal_id) && mealAccessible user_id m

/-- The row filter `id = $meal AND user_id = $caller` of
`unlink_meal_from_user`. -/
def unlinkWhere (user_id meal_id : Nat) (m : MealRow) : Bool :=
  decide (m.id = meal_id ∧ m.user_id = some user_id)

/-- `MealDetails` (`src/meals/dto.rs`), nutrition omitted (the optional
`meal_nutrition` join does not affect any claim here). -/
structure MealDetails where
  id : Nat
  title : Option String
  notes : Option String
  created_at : Nat
  images : List String
deriving DecidableEq

/-- `get_meal_details` (`src/meals/repo.rs:172-239`): `fetch_one` the meal
row with `id = $1 AND (user_id = $2 OR user_id IS NULL)` (an absent row is
the error), and collect the meal's photo keys ordered by ascending
`created_at`. -/
def get_meal_details (db : DB) (user_id meal_id : Nat) : Except String MealDetails :=
  match db.meals.find? (mealWhere user_id meal_id) with
  | none => Except.error "get meal"
  | some m =>
      Except.ok
        { id := m.id, title := m.title, notes := m.notes, created_at := m.created_at
          images := (list_photo_ids_by_meal db meal_id).map Prod.snd }

/-- `update_meal_full` (`src/meals/repo.rs:84-109`): set `title`/`notes`
on rows with `id = $3 AND (user_id = $4 OR user_id IS NULL)`; the call
errors unless exactly one row was affected. The updated store is returned
in either case (the `UPDATE` runs on the pool, outside any transaction). -/
def update_meal_full (db : DB) (user_id meal_id : Nat) (title notes : Option String) :
    DB × Except String Unit :=
  let affected := db.meals.countP (mealWhere user_id meal_id)
  let meals := db.meals.map fun m =>
    if mealWhere user_id meal_id m then { m with title := title, notes := notes } else m
  ({ db with meals := meals },
    if affected = 1 then Except.ok () else Except.error "meal not found or not accessible")

/-- `unlink_meal_from_user` (`src/meals/repo.rs:111-132`): set
`user_id = NULL` on rows with `id = $1 AND user_id = $2`; the call errors
unless exactly one row was affected. -/
def unlink_meal_from_user (db : DB) (user_id meal_id : Nat) : DB × Except String Unit :=
  let affected := db.meals.countP (unlinkWhere user_id meal_id)
  let meals := db.meals.map fun m =>
    if unlinkWhere user_id meal_id m then { m with user_id := none } else m
  ({ db with meals := meals },
    if affected = 1 then Except.ok () else Except.error "meal not found or already unlinked")

/-! ## Shared helper lemmas -/

/-- If exactly one element of `l` satisfies `p`, every element satisfying
`q` satisfies `p`, and some element of `l` satisfies `q`, then exactly one
element of `l` satisfies `q`. -/
theorem countP_eq_one_of_imp {α : Type} {p q : α → Bool} {l : List α}
    (hpq : ∀ a ∈ l, q a = true → p a = true)
    (hp : l.countP p = 1) (a : α) (ha : a ∈ l) (hqa : q a = true) :
    l.countP q = 1 := by
  have h1 : l.countP q ≤ l.countP p := List.countP_mono_left hpq
  have h2 : 0 < l.countP q := List.countP_pos_iff.mpr ⟨a, ha, hqa⟩
  omega

/-- The unlink row rewrite preserves row ids. -/
theorem unlink_map_preserves_id (owner meal_id : Nat) (x : MealRow) :
    (if unlinkWhere owner meal_id x then { x with user_id := none } else x).id = x.id := by
  by_cases hx : unlinkWhere owner meal_id x = true
  · simp [hx]
  · simp [hx]

/-- Verification of a freshly signed token with the same configuration:
the kernel fact both C6 and C7 rest on. -/
theorem verify_sign_eq (keys : JwtKeys) (user_id : Nat) (kind : TokenKind)
    (t_sign t_verify : Nat) (h : t_verify ≤ t_sign + ttlFor keys kind) :
    verify keys t_verify (sign_with_kind keys t_sign user_id kind) =
      Except.ok (sign_with_kind keys t_sign user_id kind).claims := by
  have hexp : ¬ (t_sign + ttlFor keys kind + 60 < t_verify) := by omega
  simp [verify, sign_with_kind, hexp]

/-- Concrete JWT configuration used by the witnesses. -/
def testKeys : JwtKeys :=
  { secret := "s", issuer := "iss", audience := "aud",
    access_ttl := 900, refresh_ttl := 604800 }

/-- `normalize_images` pairs every image with a content type, preserving
the count. -/
theorem normalizePairs_length (cts : List String) (bufs : List (List Nat)) :
    ∀ i, (normalizePairs cts i bufs).length = bufs.length := by
  induction bufs with
  | nil => intro i; rfl
  | cons b rest ih => intro i; simp [normalizePairs, ih]

/-- A successful upload loop returns one `(photo id, key)` pair per
image. -/
theorem runUploads_ok_length (env : Env) (uid mid : Nat)
    (items : List (List Nat × String)) :
    ∀ k st st' objs, runUploads env uid mid k st items = (st', Except.ok objs) →
      objs.length = items.length := by
  induction items with
  | nil =>
      intro k st st' objs h
      simp only [runUploads] at h
      injection h with h1 h2
      injection h2 with h3
      rw [← h3]
      rfl
  | cons it rest ih =>
      obtain ⟨body, ct⟩ := it
      intro k st st' objs h
      simp only [runUploads] at h
      by_cases hf : env.uploadFails k = true
      · rw [if_pos hf] at h
        injection h with h1 h2
        exact Except.noConfusion h2
      · rw [if_neg hf] at h
        cases hru : runUploads env uid mid (k + 1)
            (st ++ [uploadedObj env uid mid k body ct]) rest with
        | mk st2 out2 =>
            rw [hru] at h
            cases out2 with
            | error e => injection h with h1 h2; exact Except.noConfusion h2
            | ok objs2 =>
                injection h with h1 h2
                injection h2 with h3
                rw [← h3]
                simp [ih (k + 1) _ _ _ hru]

/-- If some image in the remaining list fails to upload, the upload loop
returns an error. -/
theorem runUploads_fails (env : Env) (uid mid : Nat)
    (items : List (List Nat × String)) :
    ∀ k st, (∃ j, j < items.length ∧ env.uploadFails (k + j) = true) →
      ∃ st' e, runUploads env uid mid k st items = (st', Except.error e) := by
  induction items with
  | nil =>
      intro k st h
      obtain ⟨j, hj, _⟩ := h
      exact absurd hj (by simp)
  | cons it rest ih =>
      obtain ⟨body, ct⟩ := it
      intro k st h
      obtain ⟨j, hj, hup⟩ := h
      by_cases hf : env.uploadFails k = true
      · refine ⟨st, "put_object " ++ (uploadedObj env uid mid k body ct).key, ?_⟩
        simp only [runUploads]
        rw [if_pos hf]
      · have hj0 : j ≠ 0 := by
          rintro rfl
          exact hf (by simpa using hup)
        obtain ⟨j', rfl⟩ := Nat.exists_eq_succ_of_ne_zero hj0
        have hrest : ∃ j2, j2 < rest.length ∧ env.uploadFails ((k + 1) + j2) = true := by
          refine ⟨j', by simpa using hj, ?_⟩
          have : (k + 1) + j' = k + (j' + 1) := by omega
          rw [this]
          exact hup
        obtain ⟨st2, e, hrec⟩ := ih (k + 1)
          (st ++ [uploadedObj env uid mid k body ct]) hrest
        refine ⟨st2, e, ?_⟩
        simp only [runUploads]
        rw [if_neg hf, hrec]

/-- The photo rows of a batch carry exactly the uploaded photo ids, in
order. -/
theorem photoRowsOf_map_id (uid mid : Nat) (objs : List (Nat × String)) :
    ∀ clk, (photoRowsOf uid mid clk objs).map PhotoRow.id = objs.map Prod.fst := by
  induction objs with
  | nil => intro clk; rfl
  | cons o rest ih =>
      obtain ⟨pid, key⟩ := o
      intro clk
      simp [photoRowsOf, ih]

/-- Row count of a photo batch. -/
theorem photoRowsOf_length (uid mid : Nat) (objs : List (Nat × String)) :
    ∀ clk, (photoRowsOf uid mid clk objs).length = objs.length := by
  intro clk
  have := photoRowsOf_map_id uid mid objs clk
  have h2 := congrArg List.length this
  simpa using h2

/-- Every row of a photo batch references the meal. -/
theorem photoRowsOf_meal_id (uid mid : Nat) (objs : List (Nat × String)) :
    ∀ clk r, r ∈ photoRowsOf uid mid clk objs → r.meal_id = some mid := by
  induction objs with
  | nil => intro clk r hr; simp [photoRowsOf] at hr
  | cons o rest ih =>
      obtain ⟨pid, key⟩ := o
      intro clk r hr
      simp only [photoRowsOf, List.mem_cons] at hr
      cases hr with
      | inl h => rw [h]
      | inr h => exact ih (clk + 1) r h

/-- Timestamps in a photo batch are at least the starting clock. -/
theorem photoRowsOf_created_ge (uid mid : Nat) (objs : List (Nat × String)) :
    ∀ clk r, r ∈ photoRowsOf uid mid clk objs → clk ≤ r.created_at := by
  induction objs with
  | nil => intro clk r hr; simp [photoRowsOf] at hr
  | cons o rest ih =>
      obtain ⟨pid, key⟩ := o
      intro clk r hr
      simp only [photoRowsOf, List.mem_cons] at hr
      cases hr with
      | inl h => rw [h]
      | inr h => exact Nat.le_of_succ_le (ih (clk + 1) r h)

/-- A photo batch is sorted by `created_at`: sequential inserts take
strictly increasing timestamps. -/
theorem photoRowsOf_sorted (uid mid : Nat) (objs : List (Nat × String)) :
    ∀ clk, List.Pairwise (fun a b => photoLe a b = true) (photoRowsOf uid mid clk objs) := by
  induction objs with
  | nil => intro clk; exact List.Pairwise.nil
  | cons o rest ih =>
      obtain ⟨pid, key⟩ := o
      intro clk
      refine List.Pairwise.cons ?_ (ih (clk + 1))
      intro r hr
      have hge := photoRowsOf_created_ge uid mid rest (clk + 1) r hr
      simp only [photoLe, decide_eq_true_eq]
      omega

/-- Case analysis of `upload_and_link_images`: either the store is
untouched and an error is returned (empty input, a failed upload, or a
failed photo transaction), or all photo rows are appended in one step and
their ids returned. -/
theorem upload_and_link_spec (env : Env) (db : DB) (st : List StoredObj)
    (uid mid : Nat) (images : List (List Nat × String)) :
    ((upload_and_link_images env db st uid mid images).db = db ∧
      ∃ e, (upload_and_link_images env db st uid mid images).out = Except.error e) ∨
    (∃ objs, objs.length = images.length ∧
      (upload_and_link_images env db st uid mid images).db =
        { meals := db.meals, photos := db.photos ++ photoRowsOf uid mid db.clock objs,
          clock := db.clock + objs.length } ∧
      (upload_and_link_images env db st uid mid images).out =
        Except.ok (objs.map Prod.fst)) := by
  by_cases hemp : images.isEmpty = true
  · left
    constructor
    · simp [upload_and_link_images, hemp]
    · exact ⟨"no images provided", by simp [upload_and_link_images, hemp]⟩
  · cases hru : runUploads env uid mid 0 st images with
    | mk st2 out2 =>
        cases out2 with
        | error e =>
            left
            constructor
            · simp [upload_and_link_images, hemp, hru]
            · exact ⟨e, by simp [upload_and_link_images, hemp, hru]⟩
        | ok objs =>
            by_cases h3 : env.photoTxFails = true
            · left
              constructor
              · simp [upload_and_link_images, hemp, hru, h3]
              · exact ⟨"commit tx", by simp [upload_and_link_images, hemp, hru, h3]⟩
            · right
              refine ⟨objs, runUploads_ok_length env uid mid images 0 st st2 objs hru, ?_, ?_⟩
              · simp [upload_and_link_images, hemp, hru, h3]
              · simp [upload_and_link_images, hemp, hru, h3]

/-- Reduction of `create_meal_with_images` on the path where the meal
transaction committed: the outcome is that of `upload_and_link_images`
run against the store holding the fresh meal row. -/
theorem create_meal_main_spec (env : Env) (db : DB) (st : List StoredObj) (uid : Nat)
    (req : CreatedMealRequest) (normalized : List (List Nat × String))
    (hn : normalize_images req = Except.ok normalized)
    (h1 : env.mealInsertFails = false) (h2 : env.mealCommitFails = false) :
    (∃ e, (upload_and_link_images env (mealDb1 env db uid) st uid env.mealId
        normalized).out = Except.error e ∧
      create_meal_with_images env db st uid req =
        { db := (upload_and_link_images env (mealDb1 env db uid) st uid env.mealId
            normalized).db
          storage := (upload_and_link_images env (mealDb1 env db uid) st uid env.mealId
            normalized).storage
          out := Except.error e }) ∨
    (∃ ids, (upload_and_link_images env (mealDb1 env db uid) st uid env.mealId
        normalized).out = Except.ok ids ∧
      create_meal_with_images env db st uid req =
        { db := (upload_and_link_images env (mealDb1 env db uid) st uid env.mealId
            normalized).db
          storage := (upload_and_link_images env (mealDb1 env db uid) st uid env.mealId
            normalized).storage
          out := Except.ok { id := env.mealId, created_at := db.clock, images := ids } }) := by
  cases ho : (upload_and_link_images env (mealDb1 env db uid) st uid env.mealId
      normalized).out with
  | error e =>
      left
      exact ⟨e, rfl, by simp [create_meal_with_images, hn, h1, h2, ho]⟩
  | ok ids =>
      right
      exact ⟨ids, rfl, by simp [create_meal_with_images, hn, h1, h2, ho]⟩

/-! ## Claim theorems -/

/-- C6: for every user id `U` and token kind `K`, verifying a token
produced by `sign(U, K)` with the same key, issuer and audience
configuration, at any time not after its expiry, succeeds and yields
claims whose `sub` equals `U` and whose `kind` equals `K`. -/
theorem verify_sign_roundtrip (keys : JwtKeys) (user_id : Nat) (kind : TokenKind)
    (t_sign t_verify : Nat) (h : t_verify ≤ t_sign + ttlFor keys kind) :
    ∃ c : Claims, verify keys t_verify (sign_with_kind keys t_sign user_id kind) =
      Except.ok c ∧ c.sub = user_id ∧ c.kind = kind :=
  ⟨(sign_with_kind keys t_sign user_id kind).claims,
    verify_sign_eq keys user_id kind t_sign t_verify h, rfl, rfl⟩

/-- Witness for C6 at a concrete configuration, user id and times. -/
theorem verify_sign_roundtrip_witness :
    (3 ≤ 1 + ttlFor testKeys TokenKind.Access) ∧
    ∃ c : Claims,
      verify testKeys 3 (sign_with_kind testKeys 1 42 TokenKind.Access) =
        Except.ok c ∧ c.sub = 42 ∧ c.kind = TokenKind.Access :=
  ⟨by decide, verify_sign_roundtrip testKeys 42 TokenKind.Access 1 3 (by decide)⟩

/-- C7: for every user id `U`, `verify_refresh` applied to a token produced
by `sign(U, Access)` fails with the wrong-token-kind error, even when the
token's signature, issuer, audience and expiry are all valid (verification
happens at a time not after the access token's expiry). -/
theorem verify_refresh_rejects_access (keys : JwtKeys) (user_id : Nat)
    (t_sign t_verify : Nat) (h : t_verify ≤ t_sign + keys.access_ttl) :
    verify_refresh keys t_verify (sign_access keys t_sign user_id) =
      Except.error "not a refresh token" := by
  unfold verify_refresh sign_access
  rw [verify_sign_eq keys user_id TokenKind.Access t_sign t_verify h]
  rfl

/-- Witness for C7 at a concrete configuration, user id and times. -/
theorem verify_refresh_rejects_access_witness :
    (3 ≤ 1 + testKeys.access_ttl) ∧
    verify_refresh testKeys 3 (sign_access testKeys 1 42) =
      Except.error "not a refresh token" :=
  ⟨by decide, verify_refresh_rejects_access testKeys 42 1 3 (by decide)⟩

/-- C9: for every password `P` and every salt generated during hashing —
and for every digest function the Argon2 library may compute —
verifying `P` against the hash produced from `P` succeeds and returns
`true`: the stored parameters, salt and digest make the recomputation
match exactly. -/
theorem verify_password_of_hash (argon2 : Argon2Params → List Nat → String → List Nat)
    (salt : List Nat) (plain : String) :
    verify_password argon2 plain (hash_password argon2 salt plain) = Except.ok true := by
  simp [verify_password, hash_password]

/-- C3 counterexample: the `internal` error helper returns the internal
error's own display text as the response body, so the body both contains
the internal error text and varies with it — it is not an opaque,
detail-independent 500 message. -/
theorem internal_leaks_error_text :
    (internal { msg := "db error: connection refused" }).2 = "db error: connection refused" ∧
    (internal { msg := "db error: connection refused" }).2 ≠
      (internal { msg := "storage timeout" }).2 :=
  ⟨rfl, by decide⟩

/-- C3 (amended): error responses built by `internal` for downstream
failures carry status 500 uniformly, but their body is exactly the
internal error's text — two such responses have equal bodies precisely
when the internal error texts are equal. -/
theorem internal_is_500_with_error_text (e e2 : InternalErr) :
    (internal e).1 = 500 ∧ (internal e).2 = errText e ∧
      ((internal e).2 = (internal e2).2 ↔ errText e = errText e2) :=
  ⟨rfl, rfl, Iff.rfl⟩

/-- Oracle of the concurrent-registration race: the duplicate pre-check
sees no user (the rival row is committed between the pre-check and the
insert), and the insert then fails with the Postgres unique-constraint
violation. -/
def raceErr : DbErr :=
  { unique_violation := true
    msg := "duplicate key value violates unique constraint users_email_key" }

/-- Database oracle realizing the race. -/
def raceOracle : RegOracle :=
  { find_by_email := fun _ => FindResult.noUser
    create := fun _ _ => Except.error raceErr }

/-- C4 counterexample: in the concurrent-registration race — pre-check
passes, insert fails with an email uniqueness violation — `register`
returns a 500 carrying the database error text, not the 409
"Email already registered" answer of the pre-check path. -/
theorem register_race_counterexample :
    register raceOracle (fun _ => "h") testKeys 0
        { email := "a@b.com", password := "password1" } =
      Except.error (500, "duplicate key value violates unique constraint users_email_key") ∧
    register raceOracle (fun _ => "h") testKeys 0
        { email := "a@b.com", password := "password1" } ≠
      Except.error (409, "Email already registered") := by
  constructor
  · rfl
  · decide

/-- C4 (amended): when the duplicate pre-check passes (`Ok(None)`) and the
insert then fails — in particular with a uniqueness violation, as in the
race — `register` maps the failure to `(500, e.to_string())`; it does not
translate it to the 409 "Email already registered" error of the pre-check
path. -/
theorem register_insert_conflict_is_500 (oracle : RegOracle) (hashFn : String → String)
    (keys : JwtKeys) (now : Nat) (payload : RegisterRequest) (e : DbErr)
    (hval : is_valid_email (normalizeEmail payload.email) = true)
    (hlen : 8 ≤ payload.password.length)
    (hfind : oracle.find_by_email (normalizeEmail payload.email) = FindResult.noUser)
    (hcreate : oracle.create (normalizeEmail payload.email) (hashFn payload.password) =
      Except.error e)
    (_huniq : e.unique_violation = true) :
    register oracle hashFn keys now payload = Except.error (500, e.msg) ∧
      register oracle hashFn keys now payload ≠
        Except.error (409, "Email already registered") := by
  have hl2 : ¬ (payload.password.length < 8) := by omega
  have hmain : register oracle hashFn keys now payload = Except.error (500, e.msg) := by
    simp only [register, hval, hl2, hfind, hcreate, Bool.not_true, Bool.false_eq_true,
      if_false]
  refine ⟨hmain, ?_⟩
  rw [hmain]
  simp

/-- Witness for the amended C4 at the concrete race oracle. -/
theorem register_insert_conflict_is_500_witness :
    (is_valid_email (normalizeEmail "a@b.com") = true ∧
      8 ≤ String.length "password1" ∧
      raceOracle.find_by_email (normalizeEmail "a@b.com") = FindResult.noUser ∧
      raceOracle.create (normalizeEmail "a@b.com") "h" = Except.error raceErr ∧
      raceErr.unique_violation = true) ∧
    (register raceOracle (fun _ => "h") testKeys 0
        { email := "a@b.com", password := "password1" } =
      Except.error (500, raceErr.msg) ∧
      register raceOracle (fun _ => "h") testKeys 0
          { email := "a@b.com", password := "password1" } ≠
        Except.error (409, "Email already registered")) :=
  ⟨⟨by decide, by decide, rfl, rfl, rfl⟩,
    register_insert_conflict_is_500 raceOracle (fun _ => "h") testKeys 0
      { email := "a@b.com", password := "password1" } raceErr
      (by decide) (by decide) rfl rfl rfl⟩

/-- Stripping a literal prefix from a list that starts with it. -/
theorem stripPrefixOf_append (p t : List Char) : stripPrefixOf p (p ++ t) = some t := by
  simp [stripPrefixOf, List.prefix_append, List.drop_left]

/-- The capitalized scheme `"Bearer "` is not a prefix of a header that
starts with the lowercase `"bearer "`. -/
theorem upper_bearer_not_prefix (t : List Char) :
    stripPrefixOf ("Bearer ".data) ("bearer ".data ++ t) = none := by
  rw [show "Bearer ".data = 'B' :: "earer ".data from rfl,
    show "bearer ".data = 'b' :: "earer ".data from rfl, List.cons_append]
  simp [stripPrefixOf, List.isPrefixOf]

/-- C8 counterexample: an Authorization header using the scheme casing
`"BEARER "` (or `"bEaReR "`) is rejected with the invalid-auth-scheme
error instead of proceeding to verification — the guard only strips the
two spellings `"Bearer "` and `"bearer "`. -/
theorem guard_rejects_other_bearer_casings :
    from_request_parts (fun _ => none) testKeys 0 (some ("BEARER abc".data)) =
      Except.error (401, "invalid auth scheme") ∧
    from_request_parts (fun _ => none) testKeys 0 (some ("bEaReR abc".data)) =
      Except.error (401, "invalid auth scheme") := by
  constructor <;> rfl

/-- The continuation after scheme stripping never produces the
invalid-auth-scheme rejection: its errors are the invalid-token and
wrong-kind ones. -/
theorem handle_bearer_token_ne_scheme_error (decodeTok : List Char → Option Token)
    (keys : JwtKeys) (now : Nat) (t : List Char) :
    handle_bearer_token decodeTok keys now t ≠
      Except.error (401, "invalid auth scheme") := by
  unfold handle_bearer_token
  cases hd : decodeTok t with
  | none => simp
  | some tok =>
      cases hv : verify keys now tok with
      | error e => simp [hv]
      | ok claims =>
          by_cases hk : claims.kind = TokenKind.Access
          · simp [hv, hk]
          · simp [hv, hk]

/-- C8 (amended): for every Authorization header whose trimmed value uses
exactly the scheme spelling `"Bearer "` or `"bearer "` followed by a
token, the guard extracts the token and proceeds to verification — it
does not reject with the invalid-auth-scheme error. Other casings such as
`"BEARER "` are rejected (see the counterexample). -/
theorem guard_accepts_bearer_and_lowercase (decodeTok : List Char → Option Token)
    (keys : JwtKeys) (now : Nat) (h t : List Char)
    (hpre : rustTrim h = "Bearer ".data ++ t ∨ rustTrim h = "bearer ".data ++ t) :
    from_request_parts decodeTok keys now (some h) =
        handle_bearer_token decodeTok keys now t ∧
      from_request_parts decodeTok keys now (some h) ≠
        Except.error (401, "invalid auth scheme") := by
  have h1 : orElseOpt (stripPrefixOf ("Bearer ".data) (rustTrim h))
      (stripPrefixOf ("bearer ".data) (rustTrim h)) = some t := by
    cases hpre with
    | inl hB => rw [hB, stripPrefixOf_append]; rfl
    | inr hb => rw [hb, upper_bearer_not_prefix, stripPrefixOf_append]; rfl
  have hmain : from_request_parts decodeTok keys now (some h) =
      handle_bearer_token decodeTok keys now t := by
    simp only [from_request_parts, h1]
  exact ⟨hmain, hmain ▸ handle_bearer_token_ne_scheme_error decodeTok keys now t⟩

/-- Witness for the amended C8 at a concrete whitespace-wrapped header. -/
theorem guard_accepts_bearer_witness :
    (rustTrim ("  Bearer abc ".data) = "Bearer ".data ++ "abc".data ∨
      rustTrim ("  Bearer abc ".data) = "bearer ".data ++ "abc".data) ∧
    (from_request_parts (fun _ => none) testKeys 0 (some ("  Bearer abc ".data)) =
        handle_bearer_token (fun _ => none) testKeys 0 ("abc".data) ∧
      from_request_parts (fun _ => none) testKeys 0 (some ("  Bearer abc ".data)) ≠
        Except.error (401, "invalid auth scheme")) :=
  ⟨Or.inl (by decide),
    guard_accepts_bearer_and_lowercase (fun _ => none) testKeys 0
      ("  Bearer abc ".data) ("abc".data) (Or.inl (by decide))⟩

/-- C10: a meal whose owner reference has been soft-unlinked (`user_id`
set to NULL by `unlink_meal_from_user`) remains readable via
`get_meal_details` and modifiable via `update_meal_full` by every
authenticated caller, because both queries match rows with
`user_id = $caller OR user_id IS NULL`. Hypotheses: the meal row is in the
store, owned by `owner`, and its id occurs exactly once. -/
theorem unlinked_meal_open_to_all (db : DB) (owner meal_id : Nat) (m : MealRow)
    (hm : m ∈ db.meals) (hid : m.id = meal_id) (howner : m.user_id = some owner)
    (huniq : db.meals.countP (fun x => decide (x.id = meal_id)) = 1) :
    (unlink_meal_from_user db owner meal_id).2 = Except.ok () ∧
    ∀ caller title notes,
      (∃ d, get_meal_details (unlink_meal_from_user db owner meal_id).1 caller meal_id =
        Except.ok d) ∧
      (update_meal_full (unlink_meal_from_user db owner meal_id).1 caller meal_id
        title notes).2 = Except.ok () := by
  have hqm : unlinkWhere owner meal_id m = true := by
    simp [unlinkWhere, hid, howner]
  have hcount1 : db.meals.countP (unlinkWhere owner meal_id) = 1 := by
    refine countP_eq_one_of_imp ?_ huniq m hm hqm
    intro a _ hqa
    simp only [unlinkWhere, decide_eq_true_eq] at hqa
    simp [hqa.1]
  have hfst : (unlink_meal_from_user db owner meal_id).1 =
      { db with meals := db.meals.map fun x =>
          if unlinkWhere owner meal_id x then { x with user_id := none } else x } := by
    simp [unlink_meal_from_user]
  have hgm_mem : ({ m with user_id := none } : MealRow) ∈
      (unlink_meal_from_user db owner meal_id).1.meals := by
    rw [hfst]
    have := List.mem_map_of_mem
      (fun x => if unlinkWhere owner meal_id x then { x with user_id := none } else x) hm
    simpa [hqm] using this
  have hcountAfter : (unlink_meal_from_user db owner meal_id).1.meals.countP
      (fun x => decide (x.id = meal_id)) = 1 := by
    rw [hfst]
    show (db.meals.map fun x =>
      if unlinkWhere owner meal_id x then { x with user_id := none } else x).countP
        (fun x => decide (x.id = meal_id)) = 1
    rw [List.countP_map]
    rw [List.countP_congr]
    · exact huniq
    · intro x _
      simp [Function.comp, unlink_map_preserves_id owner meal_id x]
  refine ⟨?_, ?_⟩
  · simp [unlink_meal_from_user, hcount1]
  · intro caller title notes
    have hwhere : mealWhere caller meal_id ({ m with user_id := none } : MealRow) = true := by
      simp [mealWhere, mealAccessible, hid]
    constructor
    · have hsome : ((unlink_meal_from_user db owner meal_id).1.meals.find?
          (mealWhere caller meal_id)).isSome := by
        rw [List.find?_isSome]
        exact ⟨{ m with user_id := none }, hgm_mem, hwhere⟩
      cases hfind : (unlink_meal_from_user db owner meal_id).1.meals.find?
          (mealWhere caller meal_id) with
      | none => rw [hfind] at hsome; simp at hsome
      | some d0 =>
          have hgoal : get_meal_details (unlink_meal_from_user db owner meal_id).1
              caller meal_id = Except.ok
                { id := d0.id
                  title := d0.title
                  notes := d0.notes
                  created_at := d0.created_at
                  images := (list_photo_ids_by_meal (unlink_meal_from_user db owner meal_id).1
                    meal_id).map Prod.snd } := by
            simp [get_meal_details, hfind]
          exact ⟨_, hgoal⟩
    · have hcU : (unlink_meal_from_user db owner meal_id).1.meals.countP
          (mealWhere caller meal_id) = 1 := by
        refine countP_eq_one_of_imp ?_ hcountAfter
          ({ m with user_id := none } : MealRow) hgm_mem hwhere
        intro a _ hqa
        simp only [mealWhere, Bool.and_eq_true, decide_eq_true_eq] at hqa
        simp [hqa.1]
      simp [update_meal_full, hcU]

/-- Concrete meal row used by the C10 witness: meal 1 owned by user 3. -/
def meal0 : MealRow :=
  { id := 1, user_id := some 3, title := none, notes := none, created_at := 0 }

/-- Concrete store used by the C10 witness. -/
def db0m : DB :=
  { meals := [meal0], photos := [], clock := 1 }

/-- Witness for C10: a store holding one meal owned by user 3; after the
soft-unlink, caller 99 can read and update it. -/
theorem unlinked_meal_open_to_all_witness :
    (meal0 ∈ db0m.meals ∧ meal0.id = 1 ∧ meal0.user_id = some 3 ∧
      db0m.meals.countP (fun x => decide (x.id = 1)) = 1) ∧
    ((unlink_meal_from_user db0m 3 1).2 = Except.ok () ∧
      (∃ d, get_meal_details (unlink_meal_from_user db0m 3 1).1 99 1 = Except.ok d) ∧
      (update_meal_full (unlink_meal_from_user db0m 3 1).1 99 1
        (some "t") (some "n")).2 = Except.ok ()) :=
  ⟨⟨by decide, rfl, rfl, by decide⟩,
    (unlinked_meal_open_to_all db0m 3 1 meal0 (by decide) rfl rfl (by decide)).1,
    ((unlinked_meal_open_to_all db0m 3 1 meal0 (by decide) rfl rfl (by decide)).2
      99 (some "t") (some "n")).1,
    ((unlinked_meal_open_to_all db0m 3 1 meal0 (by decide) rfl rfl (by decide)).2
      99 (some "t") (some "n")).2⟩

/-- Workflow environment in which every `put_object` call fails; the two
meal-transaction steps and the photo transaction succeed. -/
def envUploadFail : Env :=
  { mealId := 5, photoId := fun k => 10 + k, mealInsertFails := false,
    mealCommitFails := false, uploadFails := fun _ => true, photoTxFails := false }

/-- Empty store. -/
def dbEmpty : DB :=
  { meals := [], photos := [], clock := 0 }

/-- A request with a single image and no declared content type. -/
def reqOne : CreatedMealRequest :=
  { images := [[1, 2]], content_types := [] }

/-- C1 counterexample: with one image whose upload fails, the run returns
an error yet leaves the meal row committed with zero photo rows — neither
"meal row and all photo rows visible" nor "none visible" holds, because
the meal row is committed in its own earlier transaction. -/
theorem workflow_not_single_transaction_cex :
    (∃ e, (create_meal_with_images envUploadFail dbEmpty [] 7 reqOne).out =
      Except.error e) ∧
    (create_meal_with_images envUploadFail dbEmpty [] 7 reqOne).db.meals.length = 1 ∧
    (create_meal_with_images envUploadFail dbEmpty [] 7 reqOne).db.photos.length = 0 ∧
    ¬ (((create_meal_with_images envUploadFail dbEmpty [] 7 reqOne).db.meals.length = 1 ∧
        (create_meal_with_images envUploadFail dbEmpty [] 7 reqOne).db.photos.length = 1) ∨
      ((create_meal_with_images envUploadFail dbEmpty [] 7 reqOne).db.meals = [] ∧
        (create_meal_with_images envUploadFail dbEmpty [] 7 reqOne).db.photos = [])) :=
  ⟨⟨"put_object meals/7/5-10.jpg", by decide⟩, by decide, by decide, by decide⟩

/-- C1 (amended): only the photo-row inserts share one atomic
transaction — every run either leaves the photo table unchanged or
appends exactly one row per image; the meal row is inserted and committed
in a separate, earlier transaction, so a successful photo batch always
sits beside a meal row committed with the original clock, and a run that
fails after that first commit can leave the meal row visible without any
photo rows. -/
theorem photo_rows_all_or_nothing (env : Env) (db : DB) (st : List StoredObj)
    (uid : Nat) (req : CreatedMealRequest) :
    (create_meal_with_images env db st uid req).db.photos = db.photos ∨
    (∃ rows, rows.length = req.images.length ∧
      (create_meal_with_images env db st uid req).db.photos = db.photos ++ rows ∧
      (create_meal_with_images env db st uid req).db.meals =
        db.meals ++ [mealRowOf env.mealId uid db.clock] ∧
      ∃ resp, (create_meal_with_images env db st uid req).out = Except.ok resp) := by
  cases hn : normalize_images req with
  | error e => left; simp [create_meal_with_images, hn]
  | ok normalized =>
      by_cases h1 : env.mealInsertFails = true
      · left; simp [create_meal_with_images, hn, h1]
      · by_cases h2 : env.mealCommitFails = true
        · left; simp [create_meal_with_images, hn, h1, h2]
        · have h1f : env.mealInsertFails = false := by simpa using h1
          have h2f : env.mealCommitFails = false := by simpa using h2
          have hlen : normalized.length = req.images.length := by
            by_cases hemp : req.images.isEmpty = true
            · simp [normalize_images, hemp] at hn
            · simp only [normalize_images, hemp, Bool.false_eq_true, if_false] at hn
              injection hn with hn2
              rw [← hn2]
              exact normalizePairs_length req.content_types req.images 0
          cases create_meal_main_spec env db st uid req normalized hn h1f h2f with
          | inl h =>
              obtain ⟨e, hout, heq⟩ := h
              cases upload_and_link_spec env (mealDb1 env db uid) st uid env.mealId
                  normalized with
              | inl hu =>
                  left
                  rw [heq, hu.1]
                  rfl
              | inr hu =>
                  obtain ⟨objs, _, _, hokU⟩ := hu
                  rw [hokU] at hout
                  exact Except.noConfusion hout
          | inr h =>
              obtain ⟨ids, hout, heq⟩ := h
              cases upload_and_link_spec env (mealDb1 env db uid) st uid env.mealId
                  normalized with
              | inl hu =>
                  obtain ⟨_, e, herr⟩ := hu
                  rw [herr] at hout
                  exact Except.noConfusion hout
              | inr hu =>
                  obtain ⟨objs, hlenO, hdb, hokU⟩ := hu
                  right
                  refine ⟨photoRowsOf uid env.mealId (mealDb1 env db uid).clock objs,
                    ?_, ?_, ?_, ?_⟩
                  · rw [photoRowsOf_length uid env.mealId objs, hlenO, hlen]
                  · rw [heq, hdb]
                    rfl
                  · rw [heq, hdb]
                    rfl
                  · rw [heq]
                    exact ⟨{ id := env.mealId, created_at := db.clock, images := ids }, rfl⟩

/-- C2 counterexample: with one image whose upload fails, the workflow
returns an error but the relational store has already been touched — the
meal row was inserted and committed before the upload step. -/
theorem upload_failure_meal_already_committed_cex :
    (∃ e, (create_meal_with_images envUploadFail dbEmpty [] 7 reqOne).out =
      Except.error e) ∧
    (create_meal_with_images envUploadFail dbEmpty [] 7 reqOne).db.meals ≠
      dbEmpty.meals :=
  ⟨⟨"put_object meals/7/5-10.jpg", by decide⟩, by decide⟩

/-- C2 (amended): if some upload fails (and the earlier meal transaction
steps succeeded), the workflow returns an error having written no photo
rows — but the meal row has already been inserted and committed before
the uploads began, so the relational store was touched. -/
theorem upload_failure_aborts_photos_only (env : Env) (db : DB) (st : List StoredObj)
    (uid : Nat) (req : CreatedMealRequest)
    (h1 : env.mealInsertFails = false) (h2 : env.mealCommitFails = false)
    (h3 : req.images ≠ [])
    (h4 : ∃ j, j < req.images.length ∧ env.uploadFails j = true) :
    (∃ e, (create_meal_with_images env db st uid req).out = Except.error e) ∧
    (create_meal_with_images env db st uid req).db.photos = db.photos ∧
    (create_meal_with_images env db st uid req).db.meals =
      db.meals ++ [mealRowOf env.mealId uid db.clock] := by
  have hempf : req.images.isEmpty = false := by
    cases hl : req.images with
    | nil => exact absurd hl h3
    | cons a as => rfl
  have hn : normalize_images req =
      Except.ok (normalizePairs req.content_types 0 req.images) := by
    simp [normalize_images, hempf]
  have hlen : (normalizePairs req.content_types 0 req.images).length =
      req.images.length := normalizePairs_length req.content_types req.images 0
  obtain ⟨j, hj, hup⟩ := h4
  have hfail : ∃ j2, j2 < (normalizePairs req.content_types 0 req.images).length ∧
      env.uploadFails (0 + j2) = true := by
    refine ⟨j, by rw [hlen]; exact hj, ?_⟩
    simpa using hup
  obtain ⟨st2, e, hru⟩ := runUploads_fails env uid env.mealId
    (normalizePairs req.content_types 0 req.images) 0 st hfail
  have hpemp : (normalizePairs req.content_types 0 req.images).isEmpty = false := by
    cases hl : normalizePairs req.content_types 0 req.images with
    | nil =>
        rw [hl] at hlen
        cases hl2 : req.images with
        | nil => exact absurd hl2 h3
        | cons a as => rw [hl2] at hlen; simp at hlen
    | cons a as => rfl
  have hr : upload_and_link_images env (mealDb1 env db uid) st uid env.mealId
      (normalizePairs req.content_types 0 req.images) =
      { db := mealDb1 env db uid, storage := st2, out := Except.error e } := by
    simp [upload_and_link_images, hpemp, hru]
  cases create_meal_main_spec env db st uid req
      (normalizePairs req.content_types 0 req.images) hn h1 h2 with
  | inl h =>
      obtain ⟨e2, _, heq⟩ := h
      rw [hr] at heq
      refine ⟨⟨e2, ?_⟩, ?_, ?_⟩
      · rw [heq]
      · rw [heq]
        rfl
      · rw [heq]
        rfl
  | inr h =>
      obtain ⟨ids, hout, _⟩ := h
      rw [hr] at hout
      exact Except.noConfusion hout

/-- Witness for the amended C2 at the concrete failing-upload run. -/
theorem upload_failure_aborts_photos_only_witness :
    (envUploadFail.mealInsertFails = false ∧ envUploadFail.mealCommitFails = false ∧
      reqOne.images ≠ [] ∧
      (∃ j, j < reqOne.images.length ∧ envUploadFail.uploadFails j = true)) ∧
    ((∃ e, (create_meal_with_images envUploadFail dbEmpty [] 7 reqOne).out =
        Except.error e) ∧
      (create_meal_with_images envUploadFail dbEmpty [] 7 reqOne).db.photos =
        dbEmpty.photos ∧
      (create_meal_with_images envUploadFail dbEmpty [] 7 reqOne).db.meals =
        dbEmpty.meals ++ [mealRowOf envUploadFail.mealId 7 dbEmpty.clock]) :=
  ⟨⟨rfl, rfl, by decide, ⟨0, by decide, rfl⟩⟩,
    upload_failure_aborts_photos_only envUploadFail dbEmpty [] 7 reqOne rfl rfl
      (by decide) ⟨0, by decide, rfl⟩⟩

/-- C5: every successful run of the workflow on `N` images produces
exactly `N` photo rows, appended to the store, each linked to the newly
generated meal id, with ids (in submission order) equal to the `N`
returned photo ids; reading the meal's photos back ordered by ascending
`created_at` yields exactly those ids in the same order. Freshness of the
generated meal id is the hypothesis `hfresh`. -/
theorem workflow_success_n_photos (env : Env) (db : DB) (st : List StoredObj)
    (uid : Nat) (req : CreatedMealRequest) (resp : CreatedMealResponse)
    (hok : (create_meal_with_images env db st uid req).out = Except.ok resp)
    (hfresh : ∀ p ∈ db.photos, p.meal_id ≠ some env.mealId) :
    resp.id = env.mealId ∧
    resp.images.length = req.images.length ∧
    (∃ rows, (create_meal_with_images env db st uid req).db.photos = db.photos ++ rows ∧
      rows.map PhotoRow.id = resp.images ∧
      ∀ r ∈ rows, r.meal_id = some resp.id) ∧
    (list_photo_ids_by_meal (create_meal_with_images env db st uid req).db resp.id).map
      Prod.fst = resp.images := by
  cases hn : normalize_images req with
  | error e => simp [create_meal_with_images, hn] at hok
  | ok normalized =>
      by_cases h1 : env.mealInsertFails = true
      · simp [create_meal_with_images, hn, h1] at hok
      · by_cases h2 : env.mealCommitFails = true
        · simp [create_meal_with_images, hn, h1, h2] at hok
        · have h1f : env.mealInsertFails = false := by simpa using h1
          have h2f : env.mealCommitFails = false := by simpa using h2
          have hlen : normalized.length = req.images.length := by
            by_cases hemp : req.images.isEmpty = true
            · simp [normalize_images, hemp] at hn
            · simp only [normalize_images, hemp, Bool.false_eq_true, if_false] at hn
              injection hn with hn2
              rw [← hn2]
              exact normalizePairs_length req.content_types req.images 0
          cases create_meal_main_spec env db st uid req normalized hn h1f h2f with
          | inl h =>
              obtain ⟨e, _, heq⟩ := h
              rw [heq] at hok
              exact Except.noConfusion hok
          | inr h =>
              obtain ⟨ids, hout, heq⟩ := h
              cases upload_and_link_spec env (mealDb1 env db uid) st uid env.mealId
                  normalized with
              | inl hu =>
                  obtain ⟨_, e, herr⟩ := hu
                  rw [herr] at hout
                  exact Except.noConfusion hout
              | inr hu =>
                  obtain ⟨objs, hlenO, hdb, hokU⟩ := hu
                  rw [hokU] at hout
                  injection hout with hids
                  rw [heq] at hok
                  injection hok with hresp
                  have hphotos : (create_meal_with_images env db st uid req).db.photos =
                      db.photos ++ photoRowsOf uid env.mealId (mealDb1 env db uid).clock
                        objs := by
                    rw [heq, hdb]
                    rfl
                  have hrid : resp.id = env.mealId := by rw [← hresp]
                  have hrimg : resp.images = objs.map Prod.fst := by
                    rw [← hresp]
                    exact hids.symm
                  refine ⟨hrid, ?_, ?_, ?_⟩
                  · rw [hrimg, List.length_map, hlenO, hlen]
                  · refine ⟨photoRowsOf uid env.mealId (mealDb1 env db uid).clock objs,
                      hphotos, ?_, ?_⟩
                    · rw [photoRowsOf_map_id, hrimg]
                    · intro r hr
                      rw [hrid]
                      exact photoRowsOf_meal_id uid env.mealId objs
                        (mealDb1 env db uid).clock r hr
                  · rw [hrid]
                    unfold list_photo_ids_by_meal
                    rw [hphotos, List.filter_append]
                    have hfilterOld : db.photos.filter
                        (fun p => decide (p.meal_id = some env.mealId)) = [] := by
                      rw [List.filter_eq_nil_iff]
                      intro a ha
                      simp only [decide_eq_true_eq]
                      exact hfresh a ha
                    have hfilterNew : (photoRowsOf uid env.mealId (mealDb1 env db uid).clock
                        objs).filter (fun p => decide (p.meal_id = some env.mealId)) =
                        photoRowsOf uid env.mealId (mealDb1 env db uid).clock objs := by
                      rw [List.filter_eq_self]
                      intro a ha
                      simp only [decide_eq_true_eq]
                      exact photoRowsOf_meal_id uid env.mealId objs
                        (mealDb1 env db uid).clock a ha
                    rw [hfilterOld, hfilterNew, List.nil_append,
                      List.mergeSort_of_sorted
                        (photoRowsOf_sorted uid env.mealId objs (mealDb1 env db uid).clock),
                      List.map_map, hrimg]
                    exact photoRowsOf_map_id uid env.mealId objs (mealDb1 env db uid).clock

/-- Workflow environment in which every effectful step succeeds. -/
def envOk : Env :=
  { mealId := 5, photoId := fun k => 10 + k, mealInsertFails := false,
    mealCommitFails := false, uploadFails := fun _ => false, photoTxFails := false }

/-- A request with two images, the second falling back to the default
content type. -/
def reqTwo : CreatedMealRequest :=
  { images := [[1], [2, 3]], content_types := ["image/png"] }

/-- The response of the successful two-image run. -/
def respTwo : CreatedMealResponse :=
  { id := 5, created_at := 0, images := [10, 11] }

/-- Witness for C5 at the concrete successful two-image run. -/
theorem workflow_success_n_photos_witness :
    ((create_meal_with_images envOk dbEmpty [] 7 reqTwo).out = Except.ok respTwo ∧
      ∀ p ∈ dbEmpty.photos, p.meal_id ≠ some envOk.mealId) ∧
    (respTwo.id = envOk.mealId ∧
      respTwo.images.length = reqTwo.images.length ∧
      (∃ rows, (create_meal_with_images envOk dbEmpty [] 7 reqTwo).db.photos =
          dbEmpty.photos ++ rows ∧
        rows.map PhotoRow.id = respTwo.images ∧
        ∀ r ∈ rows, r.meal_id = some respTwo.id) ∧
      (list_photo_ids_by_meal (create_meal_with_images envOk dbEmpty [] 7 reqTwo).db
        respTwo.id).map Prod.fst = respTwo.images) :=
  ⟨⟨by decide, by decide⟩,
    workflow_success_n_photos envOk dbEmpty [] 7 reqTwo respTwo (by decide) (by decide)⟩

end MealMind
